import Mathlib

/-!
Verification of the noise-schedule and sampler functions of
`src/Models/1D_diffusion.py` (`get_alphas_sigmas`, `get_crash_schedule`,
`alpha_sigma_to_t`, `sample`).  Tensors are modelled pointwise over the reals:
every tensor operation in the code is elementwise or a broadcast of a scalar,
so a tensor is a function from its index set to `ℝ`.
-/

open Real

namespace Diffusion1D

/-- `torch.atan2(y, x)`: the angle of the point `(x, y)`, embedded as the
argument of the complex number `x + y·i` (both have range `(-π, π]`). -/
noncomputable def atan2 (y x : ℝ) : ℝ := Complex.arg (x + y * Complex.I)

/-- `get_alphas_sigmas(t)` returns
`(torch.cos(t * math.pi / 2), torch.sin(t * math.pi / 2))`. -/
noncomputable def get_alphas_sigmas (t : ℝ) : ℝ × ℝ :=
  (Real.cos (t * π / 2), Real.sin (t * π / 2))

/-- `alpha_sigma_to_t(alpha, sigma) = torch.atan2(sigma, alpha) / math.pi * 2`. -/
noncomputable def alpha_sigma_to_t (alpha sigma : ℝ) : ℝ :=
  atan2 sigma alpha / π * 2

/-- `get_crash_schedule(t)`: `sigma = torch.sin(t * math.pi / 2) ** 2`,
`alpha = (1 - sigma ** 2) ** 0.5`, then `alpha_sigma_to_t(alpha, sigma)`.
The power `** 0.5` is the square root; its argument `1 - sigma ** 2` is
nonnegative for every real `t` since `0 ≤ sigma ≤ 1`. -/
noncomputable def get_crash_schedule (t : ℝ) : ℝ :=
  let sigma := Real.sin (t * π / 2) ^ 2
  let alpha := Real.sqrt (1 - sigma ^ 2)
  alpha_sigma_to_t alpha sigma

/-- `atan2` recovers the angle of a point given by a cosine/sine pair, for
angles in `(-π, π]`. -/
lemma atan2_sin_cos {θ : ℝ} (h : θ ∈ Set.Ioc (-π) π) :
    atan2 (Real.sin θ) (Real.cos θ) = θ := by
  unfold atan2
  rw [Complex.ofReal_cos, Complex.ofReal_sin]
  exact Complex.arg_cos_add_sin_mul_I h

/-- On the closed right half of the unit circle, `atan2` is `arcsin`. -/
lemma atan2_sqrt_one_sub_sq {s : ℝ} (h1 : -1 ≤ s) (h2 : s ≤ 1) :
    atan2 s (Real.sqrt (1 - s ^ 2)) = Real.arcsin s := by
  have hmem := Real.arcsin_mem_Icc s
  have hππ : π / 2 < π := by linarith [pi_pos]
  have := atan2_sin_cos (θ := Real.arcsin s)
    ⟨by linarith [hmem.1], by linarith [hmem.2]⟩
  rwa [Real.sin_arcsin h1 h2, Real.cos_arcsin] at this

/-- Closed form of the crash schedule. -/
lemma get_crash_schedule_eq (t : ℝ) :
    get_crash_schedule t = Real.arcsin (Real.sin (t * π / 2) ^ 2) / π * 2 := by
  have h1 : (-1 : ℝ) ≤ Real.sin (t * π / 2) ^ 2 :=
    le_trans (by norm_num) (sq_nonneg _)
  have h2 : Real.sin (t * π / 2) ^ 2 ≤ 1 := by
    nlinarith [Real.neg_one_le_sin (t * π / 2), Real.sin_le_one (t * π / 2)]
  rw [show get_crash_schedule t =
    alpha_sigma_to_t (Real.sqrt (1 - (Real.sin (t * π / 2) ^ 2) ^ 2))
      (Real.sin (t * π / 2) ^ 2) from rfl]
  unfold alpha_sigma_to_t
  rw [atan2_sqrt_one_sub_sq h1 h2]

/-- C4: `get_alphas_sigmas(t)` returns exactly `(cos(t·π/2), sin(t·π/2))`;
consequently `alpha² + sigma² = 1` for every `t`, and as `t` goes from 0 to 1,
`alpha` is monotonically decreasing and `sigma` monotonically increasing. -/
theorem C4_alphas_sigmas (t t1 t2 : ℝ) (h0 : 0 ≤ t1) (h12 : t1 ≤ t2) (h1 : t2 ≤ 1) :
    get_alphas_sigmas t = (Real.cos (t * π / 2), Real.sin (t * π / 2)) ∧
    (get_alphas_sigmas t).1 ^ 2 + (get_alphas_sigmas t).2 ^ 2 = 1 ∧
    (get_alphas_sigmas t2).1 ≤ (get_alphas_sigmas t1).1 ∧
    (get_alphas_sigmas t1).2 ≤ (get_alphas_sigmas t2).2 := by
  have hπ := pi_pos
  refine ⟨rfl, ?_, ?_, ?_⟩
  · simp [get_alphas_sigmas, Real.cos_sq_add_sin_sq]
  · exact Real.cos_le_cos_of_nonneg_of_le_pi (by positivity)
      (by nlinarith) (by nlinarith)
  · exact Real.sin_le_sin_of_le_of_le_pi_div_two (by nlinarith)
      (by nlinarith) (by nlinarith)

/-- Witness for C4 at `t = 0`, `t1 = 0`, `t2 = 1`. -/
theorem C4_alphas_sigmas_witness :
    get_alphas_sigmas 0 = (Real.cos (0 * π / 2), Real.sin (0 * π / 2)) ∧
    (get_alphas_sigmas 0).1 ^ 2 + (get_alphas_sigmas 0).2 ^ 2 = 1 ∧
    (get_alphas_sigmas 1).1 ≤ (get_alphas_sigmas 0).1 ∧
    (get_alphas_sigmas 0).2 ≤ (get_alphas_sigmas 1).2 :=
  C4_alphas_sigmas 0 0 1 le_rfl zero_le_one le_rfl

/-- C5: for every `t ∈ [0,1]`, `alpha_sigma_to_t` applied to the pair returned
by `get_alphas_sigmas t` returns `t` (this round-trip is in fact exact at the
boundary points `t = 0` and `t = 1` as well), and `alpha_sigma_to_t` computes
`atan2(sigma, alpha) / (π/2)`. -/
theorem C5_round_trip (t : ℝ) (h0 : 0 ≤ t) (h1 : t ≤ 1) :
    alpha_sigma_to_t (get_alphas_sigmas t).1 (get_alphas_sigmas t).2 = t ∧
    ∀ a s : ℝ, alpha_sigma_to_t a s = atan2 s a / (π / 2) := by
  have hπ := pi_pos
  constructor
  · unfold alpha_sigma_to_t get_alphas_sigmas
    rw [atan2_sin_cos ⟨by nlinarith, by nlinarith⟩]
    field_simp
    ring
  · intro a s
    unfold alpha_sigma_to_t
    rw [div_div_eq_mul_div, div_mul_eq_mul_div, mul_comm]

/-- Witness for C5 at `t = 1/2`. -/
theorem C5_round_trip_witness :
    alpha_sigma_to_t (get_alphas_sigmas (1/2)).1 (get_alphas_sigmas (1/2)).2 = 1/2 ∧
    ∀ a s : ℝ, alpha_sigma_to_t a s = atan2 s a / (π / 2) :=
  C5_round_trip (1/2) (by norm_num) (by norm_num)

/-- The crash schedule fixes the clean endpoint `t = 0`. -/
lemma crash_schedule_zero : get_crash_schedule 0 = 0 := by
  rw [get_crash_schedule_eq]
  simp

/-- The crash schedule fixes the noisy endpoint `t = 1`. -/
lemma crash_schedule_one : get_crash_schedule 1 = 1 := by
  rw [get_crash_schedule_eq, one_mul, Real.sin_pi_div_two, one_pow,
    Real.arcsin_one]
  field_simp
  ring

/-- The noise coefficient obtained by feeding a warped timestep to the
schedule equals the square of the unwarped noise coefficient. -/
lemma warped_sigma_eq (t : ℝ) :
    (get_alphas_sigmas (get_crash_schedule t)).2 = Real.sin (t * π / 2) ^ 2 := by
  have h1 : (-1 : ℝ) ≤ Real.sin (t * π / 2) ^ 2 :=
    le_trans (by norm_num) (sq_nonneg _)
  have h2 : Real.sin (t * π / 2) ^ 2 ≤ 1 := by
    nlinarith [Real.neg_one_le_sin (t * π / 2), Real.sin_le_one (t * π / 2)]
  show Real.sin (get_crash_schedule t * π / 2) = _
  rw [get_crash_schedule_eq]
  rw [show Real.arcsin (Real.sin (t * π / 2) ^ 2) / π * 2 * π / 2 =
      Real.arcsin (Real.sin (t * π / 2) ^ 2) by field_simp]
  rw [Real.sin_arcsin h1 h2]

/-- C6: `get_crash_schedule` preserves the endpoints (`0 ↦ 0`, `1 ↦ 1`) and is
monotonically non-decreasing over `[0, 1]`. -/
theorem C6_crash_schedule_endpoints_monotone (t1 t2 : ℝ)
    (h0 : 0 ≤ t1) (h12 : t1 ≤ t2) (h1 : t2 ≤ 1) :
    get_crash_schedule 0 = 0 ∧ get_crash_schedule 1 = 1 ∧
    get_crash_schedule t1 ≤ get_crash_schedule t2 := by
  have hπ := pi_pos
  refine ⟨crash_schedule_zero, crash_schedule_one, ?_⟩
  rw [get_crash_schedule_eq, get_crash_schedule_eq]
  have hs1 : 0 ≤ Real.sin (t1 * π / 2) :=
    Real.sin_nonneg_of_nonneg_of_le_pi (by positivity) (by nlinarith)
  have hs12 : Real.sin (t1 * π / 2) ≤ Real.sin (t2 * π / 2) :=
    Real.sin_le_sin_of_le_of_le_pi_div_two (by nlinarith) (by nlinarith)
      (by nlinarith)
  have hsq : Real.sin (t1 * π / 2) ^ 2 ≤ Real.sin (t2 * π / 2) ^ 2 := by
    nlinarith
  have harc := Real.monotone_arcsin hsq
  gcongr

/-- Witness for C6 at `t1 = 0`, `t2 = 1`. -/
theorem C6_crash_schedule_endpoints_monotone_witness :
    get_crash_schedule 0 = 0 ∧ get_crash_schedule 1 = 1 ∧
    get_crash_schedule 0 ≤ get_crash_schedule 1 :=
  C6_crash_schedule_endpoints_monotone 0 1 le_rfl zero_le_one le_rfl

/-- C7 counterexample: the warped noise coefficient does NOT grow more steeply
near the clean end than the unwarped one.  Both coefficients vanish at
`t = 0`, yet at `t = 1/2` the warped coefficient is strictly BELOW the
unwarped one, so its growth from the clean end is strictly slower. -/
theorem C7_counterexample :
    (get_alphas_sigmas (get_crash_schedule (1/2))).2 <
      (get_alphas_sigmas (1/2 : ℝ)).2 ∧
    (get_alphas_sigmas (get_crash_schedule 0)).2 = (get_alphas_sigmas (0 : ℝ)).2 := by
  constructor
  · rw [warped_sigma_eq]
    show Real.sin ((1:ℝ)/2 * π / 2) ^ 2 < Real.sin ((1:ℝ)/2 * π / 2)
    rw [show (1:ℝ)/2 * π / 2 = π / 4 by ring, Real.sin_pi_div_four]
    have h2 : Real.sqrt 2 ^ 2 = 2 := Real.sq_sqrt (by norm_num)
    have hnn : 0 ≤ Real.sqrt 2 := Real.sqrt_nonneg 2
    nlinarith
  · rw [warped_sigma_eq]
    show Real.sin ((0:ℝ) * π / 2) ^ 2 = Real.sin ((0:ℝ) * π / 2)
    simp

/-- C7 amended: for `t` in the interior of the schedule, the effective noise
coefficient of the warped schedule, `sin(crash_schedule(t)·π/2)`, equals
`sin(t·π/2)²` and is strictly SMALLER than the unwarped coefficient
`sin(t·π/2)` — noise growth is decelerated, not accelerated, near the clean
end of the schedule. -/
theorem C7_crash_warp_growth (t : ℝ) (h0 : 0 < t) (h1 : t < 1) :
    (get_alphas_sigmas (get_crash_schedule t)).2 = (get_alphas_sigmas t).2 ^ 2 ∧
    (get_alphas_sigmas (get_crash_schedule t)).2 < (get_alphas_sigmas t).2 := by
  have hπ := pi_pos
  have hid : (get_alphas_sigmas (get_crash_schedule t)).2 =
      Real.sin (t * π / 2) ^ 2 := warped_sigma_eq t
  have hspos : 0 < Real.sin (t * π / 2) :=
    Real.sin_pos_of_pos_of_lt_pi (by positivity) (by nlinarith)
  have hcpos : 0 < Real.cos (t * π / 2) :=
    Real.cos_pos_of_mem_Ioo ⟨by nlinarith, by nlinarith⟩
  have hs1 : Real.sin (t * π / 2) < 1 := by
    nlinarith [Real.sin_sq_add_cos_sq (t * π / 2)]
  refine ⟨hid, ?_⟩
  rw [hid]
  show Real.sin (t * π / 2) ^ 2 < Real.sin (t * π / 2)
  nlinarith

/-- Witness for the amended C7 at `t = 1/2`. -/
theorem C7_crash_warp_growth_witness :
    (get_alphas_sigmas (get_crash_schedule (1/2))).2 =
      (get_alphas_sigmas (1/2 : ℝ)).2 ^ 2 ∧
    (get_alphas_sigmas (get_crash_schedule (1/2))).2 <
      (get_alphas_sigmas (1/2 : ℝ)).2 :=
  C7_crash_warp_growth (1/2) (by norm_num) (by norm_num)

/-!
### The sampler

A tensor of shape `(batch, channels, length)` is modelled as a function
`Fin b → ι → ℝ`, where `ι` stands for the inner `(channels, length)` index
set; every tensor operation in `sample` is elementwise or a broadcast of a
scalar.  The stream of `torch.randn_like` results is modelled as an oracle
`noise : ℕ → Fin b → ι → ℝ`, consumed in order of the draws.
-/

/-- `ts = x.new_ones([x.shape[0]])`: the batch-shaped tensor of ones. -/
def sample_ts (b : ℕ) : Fin b → ℝ := fun _ => 1

/-- Entry `i` of `torch.linspace(1, 0, steps + 1)[:-1]`: the grid point
`1 - i/steps` (the loop reads indices `0 ≤ i < steps`). -/
noncomputable def linspace_t (steps i : ℕ) : ℝ := 1 - (i : ℝ) / (steps : ℝ)

/-- `t = get_crash_schedule(t)`, applied elementwise to the grid. -/
noncomputable def t_sched (steps i : ℕ) : ℝ :=
  get_crash_schedule (linspace_t steps i)

/-- `alphas, sigmas = get_alphas_sigmas(t)`, elementwise: the alphas. -/
noncomputable def alphas (steps i : ℕ) : ℝ :=
  (get_alphas_sigmas (t_sched steps i)).1

/-- `alphas, sigmas = get_alphas_sigmas(t)`, elementwise: the sigmas. -/
noncomputable def sigmas (steps i : ℕ) : ℝ :=
  (get_alphas_sigmas (t_sched steps i)).2

/-- `pred = x * alphas[i] - v * sigmas[i]`. -/
def predOf {b : ℕ} {ι : Type} (x v : Fin b → ι → ℝ) (a s : ℝ) :
    Fin b → ι → ℝ :=
  fun k j => x k j * a - v k j * s

/-- `eps = x * sigmas[i] + v * alphas[i]`. -/
def epsOf {b : ℕ} {ι : Type} (x v : Fin b → ι → ℝ) (a s : ℝ) :
    Fin b → ι → ℝ :=
  fun k j => x k j * s + v k j * a

/-- `ddim_sigma = eta * (sigmas[i+1]**2 / sigmas[i]**2).sqrt()
* (1 - alphas[i]**2 / alphas[i+1]**2).sqrt()`. -/
noncomputable def ddim_sigma (eta : ℝ) (steps i : ℕ) : ℝ :=
  eta * Real.sqrt (sigmas steps (i+1) ^ 2 / sigmas steps i ^ 2) *
    Real.sqrt (1 - alphas steps i ^ 2 / alphas steps (i+1) ^ 2)

/-- `adjusted_sigma = (sigmas[i+1]**2 - ddim_sigma**2).sqrt()`. -/
noncomputable def adjusted_sigma (eta : ℝ) (steps i : ℕ) : ℝ :=
  Real.sqrt (sigmas steps (i+1) ^ 2 - ddim_sigma eta steps i ^ 2)

/-- The sampler's loop state: the current tensor `x`, the Python local
variable `pred` (`none` while it is still unassigned), the log of the
timestep tensors fed to the model so far, and the number of fresh-noise
draws made so far. -/
structure SampleState (b : ℕ) (ι : Type) where
  x : Fin b → ι → ℝ
  pred : Option (Fin b → ι → ℝ)
  tlog : List (Fin b → ℝ)
  draws : ℕ

/-- One iteration `i` of the sampling loop: `v = model(x, ts * t[i])`,
`pred`/`eps` as in the code; if `i < steps - 1` the state becomes
`pred * alphas[i+1] + eps * adjusted_sigma`, plus
`torch.randn_like(x) * ddim_sigma` (one fresh draw from the noise stream)
when `eta` is nonzero (`if eta:`); on the last iteration `x` is untouched. -/
noncomputable def sampleStep {b : ℕ} {ι : Type}
    (model : (Fin b → ι → ℝ) → (Fin b → ℝ) → (Fin b → ι → ℝ))
    (steps : ℕ) (eta : ℝ) (noise : ℕ → Fin b → ι → ℝ) (i : ℕ)
    (s : SampleState b ι) : SampleState b ι :=
  let tstep : Fin b → ℝ := fun k => sample_ts b k * t_sched steps i
  let v := model s.x tstep
  let prd := predOf s.x v (alphas steps i) (sigmas steps i)
  let eps := epsOf s.x v (alphas steps i) (sigmas steps i)
  { x :=
      if i < steps - 1 then
        if eta ≠ 0 then
          fun k j => prd k j * alphas steps (i+1) +
            eps k j * adjusted_sigma eta steps i +
            noise s.draws k j * ddim_sigma eta steps i
        else
          fun k j => prd k j * alphas steps (i+1) +
            eps k j * adjusted_sigma eta steps i
      else s.x
    pred := some prd
    tlog := s.tlog ++ [tstep]
    draws := s.draws + if i < steps - 1 ∧ eta ≠ 0 then 1 else 0 }

/-- The loop state after the first `n` iterations of `sample`, starting from
the initial tensor `x0` with `pred` unassigned, an empty log and no draws. -/
noncomputable def sampleRunAux {b : ℕ} {ι : Type}
    (model : (Fin b → ι → ℝ) → (Fin b → ℝ) → (Fin b → ι → ℝ))
    (x0 : Fin b → ι → ℝ) (steps : ℕ) (eta : ℝ)
    (noise : ℕ → Fin b → ι → ℝ) (n : ℕ) : SampleState b ι :=
  (List.range n).foldl (fun s i => sampleStep model steps eta noise i s)
    ⟨x0, none, [], 0⟩

/-- The loop state when `for i in trange(steps)` finishes. -/
noncomputable def sampleRun {b : ℕ} {ι : Type}
    (model : (Fin b → ι → ℝ) → (Fin b → ℝ) → (Fin b → ι → ℝ))
    (x0 : Fin b → ι → ℝ) (steps : ℕ) (eta : ℝ)
    (noise : ℕ → Fin b → ι → ℝ) : SampleState b ι :=
  sampleRunAux model x0 steps eta noise steps

/-- The error `sample` ends with when the loop body never ran: `return pred`
reads a local variable that was never assigned (`UnboundLocalError`). -/
inductive SampleError where
  | unboundLocalPred : SampleError
deriving DecidableEq

/-- `sample(model, x, steps, eta)`: run the loop, then `return pred`. -/
noncomputable def sample {b : ℕ} {ι : Type}
    (model : (Fin b → ι → ℝ) → (Fin b → ℝ) → (Fin b → ι → ℝ))
    (x0 : Fin b → ι → ℝ) (steps : ℕ) (eta : ℝ)
    (noise : ℕ → Fin b → ι → ℝ) : Except SampleError (Fin b → ι → ℝ) :=
  match (sampleRun model x0 steps eta noise).pred with
  | some p => Except.ok p
  | none => Except.error SampleError.unboundLocalPred

/-- Unrolling the last iteration of the loop. -/
lemma sampleRunAux_succ {b : ℕ} {ι : Type}
    (model : (Fin b → ι → ℝ) → (Fin b → ℝ) → (Fin b → ι → ℝ))
    (x0 : Fin b → ι → ℝ) (steps : ℕ) (eta : ℝ)
    (noise : ℕ → Fin b → ι → ℝ) (n : ℕ) :
    sampleRunAux model x0 steps eta noise (n + 1) =
      sampleStep model steps eta noise n
        (sampleRunAux model x0 steps eta noise n) := by
  unfold sampleRunAux
  rw [List.range_succ, List.foldl_append, List.foldl_cons, List.foldl_nil]

/-- The log of timestep tensors after `n` iterations: one entry `ts * t[i]`
per iteration, in order. -/
lemma sampleRunAux_tlog {b : ℕ} {ι : Type}
    (model : (Fin b → ι → ℝ) → (Fin b → ℝ) → (Fin b → ι → ℝ))
    (x0 : Fin b → ι → ℝ) (steps : ℕ) (eta : ℝ)
    (noise : ℕ → Fin b → ι → ℝ) (n : ℕ) :
    (sampleRunAux model x0 steps eta noise n).tlog =
      (List.range n).map (fun i k => sample_ts b k * t_sched steps i) := by
  induction n with
  | zero => rfl
  | succ m ih =>
    rw [sampleRunAux_succ, List.range_succ, List.map_append]
    show (sampleRunAux model x0 steps eta noise m).tlog ++ _ = _
    rw [ih]
    rfl

/-- With `eta = 0` a loop iteration never reads the noise stream. -/
lemma sampleStep_eta_zero {b : ℕ} {ι : Type}
    (model : (Fin b → ι → ℝ) → (Fin b → ℝ) → (Fin b → ι → ℝ))
    (steps : ℕ) (noise1 noise2 : ℕ → Fin b → ι → ℝ) (i : ℕ)
    (s : SampleState b ι) :
    sampleStep model steps 0 noise1 i s = sampleStep model steps 0 noise2 i s := by
  simp [sampleStep]

/-- With `eta = 0` a loop iteration makes no fresh-noise draw. -/
lemma sampleStep_draws_eta_zero {b : ℕ} {ι : Type}
    (model : (Fin b → ι → ℝ) → (Fin b → ℝ) → (Fin b → ι → ℝ))
    (steps : ℕ) (noise : ℕ → Fin b → ι → ℝ) (i : ℕ) (s : SampleState b ι) :
    (sampleStep model steps 0 noise i s).draws = s.draws := by
  simp [sampleStep]

/-- With `eta = 0` the whole run is independent of the noise stream. -/
lemma sampleRunAux_eta_zero {b : ℕ} {ι : Type}
    (model : (Fin b → ι → ℝ) → (Fin b → ℝ) → (Fin b → ι → ℝ))
    (x0 : Fin b → ι → ℝ) (steps : ℕ)
    (noise1 noise2 : ℕ → Fin b → ι → ℝ) (n : ℕ) :
    sampleRunAux model x0 steps 0 noise1 n =
      sampleRunAux model x0 steps 0 noise2 n := by
  induction n with
  | zero => rfl
  | succ m ih =>
    rw [sampleRunAux_succ, sampleRunAux_succ, ih]
    exact sampleStep_eta_zero model steps noise1 noise2 m _

/-- With `eta = 0` the whole run makes no fresh-noise draw. -/
lemma sampleRunAux_draws_eta_zero {b : ℕ} {ι : Type}
    (model : (Fin b → ι → ℝ) → (Fin b → ℝ) → (Fin b → ι → ℝ))
    (x0 : Fin b → ι → ℝ) (steps : ℕ) (noise : ℕ → Fin b → ι → ℝ) (n : ℕ) :
    (sampleRunAux model x0 steps 0 noise n).draws = 0 := by
  induction n with
  | zero => rfl
  | succ m ih =>
    rw [sampleRunAux_succ, sampleStep_draws_eta_zero]
    exact ih

/-- C1: for an iteration `i < steps - 1`, with `v` the denoiser output, the
state becomes `pred*alphas[i+1] + eps*adjusted_sigma`, plus
`ddim_sigma * fresh_noise` exactly when `eta ≠ 0` (in which case one draw is
consumed); `ddim_sigma` and `adjusted_sigma` have the claimed closed forms,
`pred = x*alphas[i] - v*sigmas[i]`, `eps = x*sigmas[i] + v*alphas[i]`; on the
last iteration `i = steps - 1` the state is not recombined and no draw
occurs. -/
theorem C1_step_update {b : ℕ} {ι : Type}
    (model : (Fin b → ι → ℝ) → (Fin b → ℝ) → (Fin b → ι → ℝ))
    (steps : ℕ) (eta : ℝ) (noise : ℕ → Fin b → ι → ℝ) (i : ℕ)
    (s : SampleState b ι) (hi : i < steps - 1) :
    (sampleStep model steps eta noise i s).x = (fun k j =>
      predOf s.x (model s.x (fun k => sample_ts b k * t_sched steps i))
          (alphas steps i) (sigmas steps i) k j * alphas steps (i+1) +
      epsOf s.x (model s.x (fun k => sample_ts b k * t_sched steps i))
          (alphas steps i) (sigmas steps i) k j * adjusted_sigma eta steps i +
      (if eta ≠ 0 then noise s.draws k j * ddim_sigma eta steps i else 0)) ∧
    (sampleStep model steps eta noise i s).draws =
      s.draws + (if eta ≠ 0 then 1 else 0) ∧
    ddim_sigma eta steps i =
      eta * Real.sqrt (sigmas steps (i+1) ^ 2 / sigmas steps i ^ 2) *
        Real.sqrt (1 - alphas steps i ^ 2 / alphas steps (i+1) ^ 2) ∧
    adjusted_sigma eta steps i =
      Real.sqrt (sigmas steps (i+1) ^ 2 - ddim_sigma eta steps i ^ 2) ∧
    predOf s.x (model s.x (fun k => sample_ts b k * t_sched steps i))
        (alphas steps i) (sigmas steps i) = (fun k j =>
      s.x k j * alphas steps i -
        (model s.x (fun k => sample_ts b k * t_sched steps i)) k j *
          sigmas steps i) ∧
    epsOf s.x (model s.x (fun k => sample_ts b k * t_sched steps i))
        (alphas steps i) (sigmas steps i) = (fun k j =>
      s.x k j * sigmas steps i +
        (model s.x (fun k => sample_ts b k * t_sched steps i)) k j *
          alphas steps i) ∧
    (sampleStep model steps eta noise (steps - 1) s).x = s.x ∧
    (sampleStep model steps eta noise (steps - 1) s).draws = s.draws := by
  refine ⟨?_, ?_, rfl, rfl, rfl, rfl, ?_, ?_⟩
  · by_cases he : eta = 0
    · subst he
      funext k j
      simp [sampleStep, hi]
    · funext k j
      simp [sampleStep, hi, he]
  · simp [sampleStep, hi]
  · simp [sampleStep]
  · simp [sampleStep]

/-- A concrete denoiser for the witnesses: returns its input tensor. -/
def testModel : (Fin 1 → Unit → ℝ) → (Fin 1 → ℝ) → (Fin 1 → Unit → ℝ) :=
  fun x _ => x

/-- A concrete initial tensor for the witnesses. -/
def testX : Fin 1 → Unit → ℝ := fun _ _ => 1

/-- A concrete noise stream for the witnesses. -/
def testNoise : ℕ → Fin 1 → Unit → ℝ := fun _ _ _ => 0

/-- A second, different concrete noise stream. -/
def testNoise2 : ℕ → Fin 1 → Unit → ℝ := fun _ _ _ => 1

/-- A concrete loop state for the witnesses. -/
def testState : SampleState 1 Unit := ⟨testX, none, [], 0⟩

/-- Witness for C1 at `steps = 2`, `i = 0`, `eta = 1`. -/
theorem C1_step_update_witness :
    (sampleStep testModel 2 1 testNoise 0 testState).x = (fun k j =>
      predOf testState.x
          (testModel testState.x (fun k => sample_ts 1 k * t_sched 2 0))
          (alphas 2 0) (sigmas 2 0) k j * alphas 2 1 +
      epsOf testState.x
          (testModel testState.x (fun k => sample_ts 1 k * t_sched 2 0))
          (alphas 2 0) (sigmas 2 0) k j * adjusted_sigma 1 2 0 +
      testNoise testState.draws k j * ddim_sigma 1 2 0) ∧
    (sampleStep testModel 2 1 testNoise 0 testState).draws =
      testState.draws + 1 ∧
    (sampleStep testModel 2 1 testNoise (2 - 1) testState).x = testState.x := by
  obtain ⟨h1, h2, -, -, -, -, h7, -⟩ :=
    C1_step_update testModel 2 1 testNoise 0 testState (by norm_num)
  refine ⟨?_, ?_, h7⟩
  · simpa using h1
  · simpa using h2

/-- C2: `sample` builds `steps` timesteps `t_i = 1 - i/steps`, warps each with
`get_crash_schedule`, computes `(alphas[i], sigmas[i])` by `get_alphas_sigmas`
on the warped value, and at step `i` feeds the denoiser the warped `t_i`
broadcast to every example of the batch. -/
theorem C2_schedule_and_model_input {b : ℕ} {ι : Type}
    (model : (Fin b → ι → ℝ) → (Fin b → ℝ) → (Fin b → ι → ℝ))
    (x0 : Fin b → ι → ℝ) (steps : ℕ) (eta : ℝ)
    (noise : ℕ → Fin b → ι → ℝ) (i : ℕ) (hi : i < steps) :
    (sampleRun model x0 steps eta noise).tlog.length = steps ∧
    (sampleRun model x0 steps eta noise).tlog[i]? =
      some (fun k => sample_ts b k * t_sched steps i) ∧
    (fun k : Fin b => sample_ts b k * t_sched steps i) =
      (fun _ => t_sched steps i) ∧
    t_sched steps i = get_crash_schedule (linspace_t steps i) ∧
    linspace_t steps i = 1 - (i : ℝ) / (steps : ℝ) ∧
    alphas steps i = (get_alphas_sigmas (t_sched steps i)).1 ∧
    sigmas steps i = (get_alphas_sigmas (t_sched steps i)).2 := by
  refine ⟨?_, ?_, ?_, rfl, rfl, rfl, rfl⟩
  · simp [sampleRun, sampleRunAux_tlog]
  · simp [sampleRun, sampleRunAux_tlog, List.getElem?_range, hi]
  · funext k
    simp [sample_ts]

/-- Witness for C2 at `steps = 1`, `i = 0`. -/
theorem C2_schedule_and_model_input_witness :
    (sampleRun testModel testX 1 0 testNoise).tlog.length = 1 ∧
    (sampleRun testModel testX 1 0 testNoise).tlog[0]? =
      some (fun k => sample_ts 1 k * t_sched 1 0) ∧
    (fun k : Fin 1 => sample_ts 1 k * t_sched 1 0) =
      (fun _ => t_sched 1 0) ∧
    t_sched 1 0 = get_crash_schedule (linspace_t 1 0) ∧
    linspace_t 1 0 = 1 - (0 : ℝ) / (1 : ℝ) ∧
    alphas 1 0 = (get_alphas_sigmas (t_sched 1 0)).1 ∧
    sigmas 1 0 = (get_alphas_sigmas (t_sched 1 0)).2 := by
  simpa using
    C2_schedule_and_model_input testModel testX 1 0 testNoise 0 (by norm_num)

/-- C3: for `steps ≥ 1`, `sample` invokes the denoiser exactly `steps` times
and returns (as a normal result) the `pred` computed in the final iteration
`steps - 1`, not `x`; in particular with `steps = 1, eta = 0` it performs one
denoiser call and returns `x*alpha_0 - v*sigma_0` with `(alpha_0, sigma_0) =
get_alphas_sigmas (get_crash_schedule 1)`. -/
theorem C3_call_count_and_return {b : ℕ} {ι : Type}
    (model : (Fin b → ι → ℝ) → (Fin b → ℝ) → (Fin b → ι → ℝ))
    (x0 : Fin b → ι → ℝ) (steps : ℕ) (eta : ℝ)
    (noise : ℕ → Fin b → ι → ℝ) (h1 : 1 ≤ steps) :
    (sampleRun model x0 steps eta noise).tlog.length = steps ∧
    sample model x0 steps eta noise = Except.ok
      (predOf (sampleRunAux model x0 steps eta noise (steps - 1)).x
        (model (sampleRunAux model x0 steps eta noise (steps - 1)).x
          (fun k => sample_ts b k * t_sched steps (steps - 1)))
        (alphas steps (steps - 1)) (sigmas steps (steps - 1))) ∧
    sample model x0 1 0 noise = Except.ok (fun k j =>
      x0 k j * (get_alphas_sigmas (get_crash_schedule 1)).1 -
      (model x0 (fun k => sample_ts b k * get_crash_schedule 1)) k j *
        (get_alphas_sigmas (get_crash_schedule 1)).2) ∧
    (sampleRun model x0 1 0 noise).tlog.length = 1 := by
  have key : sampleRun model x0 steps eta noise =
      sampleStep model steps eta noise (steps - 1)
        (sampleRunAux model x0 steps eta noise (steps - 1)) := by
    have h := sampleRunAux_succ model x0 steps eta noise (steps - 1)
    rw [Nat.sub_add_cancel h1] at h
    exact h
  refine ⟨?_, ?_, ?_, ?_⟩
  · simp [sampleRun, sampleRunAux_tlog]
  · unfold sample
    rw [key]
    rfl
  · have ht : t_sched 1 0 = get_crash_schedule 1 := by
      unfold t_sched linspace_t
      norm_num
    rw [show sample model x0 1 0 noise = Except.ok
      (predOf x0 (model x0 (fun k => sample_ts b k * t_sched 1 0))
        (alphas 1 0) (sigmas 1 0)) from rfl]
    simp only [predOf, alphas, sigmas, ht]
    rfl
  · simp [sampleRun, sampleRunAux_tlog]

/-- Witness for C3 at `steps = 1`, `eta = 0`. -/
theorem C3_call_count_and_return_witness :
    (sampleRun testModel testX 1 0 testNoise).tlog.length = 1 ∧
    sample testModel testX 1 0 testNoise = Except.ok
      (predOf (sampleRunAux testModel testX 1 0 testNoise 0).x
        (testModel (sampleRunAux testModel testX 1 0 testNoise 0).x
          (fun k => sample_ts 1 k * t_sched 1 0))
        (alphas 1 0) (sigmas 1 0)) ∧
    sample testModel testX 1 0 testNoise = Except.ok (fun k j =>
      testX k j * (get_alphas_sigmas (get_crash_schedule 1)).1 -
      (testModel testX (fun k => sample_ts 1 k * get_crash_schedule 1)) k j *
        (get_alphas_sigmas (get_crash_schedule 1)).2) := by
  obtain ⟨h1, h2, h3, -⟩ :=
    C3_call_count_and_return testModel testX 1 0 testNoise (le_refl 1)
  exact ⟨h1, by simpa using h2, h3⟩

/-- C8: with `eta = 0` the sampler is deterministic — the result does not
depend on the noise stream at all — and no fresh-noise draw occurs during the
whole call. -/
theorem C8_eta_zero_deterministic {b : ℕ} {ι : Type}
    (model : (Fin b → ι → ℝ) → (Fin b → ℝ) → (Fin b → ι → ℝ))
    (x0 : Fin b → ι → ℝ) (steps : ℕ)
    (noise1 noise2 : ℕ → Fin b → ι → ℝ) (h1 : 1 ≤ steps) :
    sample model x0 steps 0 noise1 = sample model x0 steps 0 noise2 ∧
    (sampleRun model x0 steps 0 noise1).draws = 0 := by
  constructor
  · unfold sample sampleRun
    rw [sampleRunAux_eta_zero model x0 steps noise1 noise2 steps]
  · unfold sampleRun
    exact sampleRunAux_draws_eta_zero model x0 steps noise1 steps

/-- Witness for C8 at `steps = 1` with two different noise streams. -/
theorem C8_eta_zero_deterministic_witness :
    sample testModel testX 1 0 testNoise = sample testModel testX 1 0 testNoise2 ∧
    (sampleRun testModel testX 1 0 testNoise).draws = 0 :=
  C8_eta_zero_deterministic testModel testX 1 testNoise testNoise2 (le_refl 1)

/-- C9: for every step `i` of the loop and every state `x` and denoiser
output `v`, `x = pred*alphas[i] + eps*sigmas[i]` where `pred` and `eps` are
the estimates the loop computes from `x` and `v` — the state always lies on
the schedule's interpolation line between the two estimates. -/
theorem C9_interpolation_invariant {b : ℕ} {ι : Type} (steps i : ℕ)
    (hi : i < steps) (x v : Fin b → ι → ℝ) :
    x = fun k j =>
      predOf x v (alphas steps i) (sigmas steps i) k j * alphas steps i +
      epsOf x v (alphas steps i) (sigmas steps i) k j * sigmas steps i := by
  have h1 : alphas steps i ^ 2 + sigmas steps i ^ 2 = 1 := by
    simp [alphas, sigmas, get_alphas_sigmas, Real.cos_sq_add_sin_sq]
  funext k j
  show x k j =
    (x k j * alphas steps i - v k j * sigmas steps i) * alphas steps i +
    (x k j * sigmas steps i + v k j * alphas steps i) * sigmas steps i
  linear_combination (x k j) * h1.symm

/-- Witness for C9 at `steps = 1`, `i = 0`. -/
theorem C9_interpolation_invariant_witness :
    testX = fun k j =>
      predOf testX testX (alphas 1 0) (sigmas 1 0) k j * alphas 1 0 +
      epsOf testX testX (alphas 1 0) (sigmas 1 0) k j * sigmas 1 0 :=
  C9_interpolation_invariant 1 0 (by norm_num) testX testX

/-- C10: calling `sample` with `steps = 0` performs no denoiser invocation
and fails — but with the unbound-local error raised by `return pred` (the
loop body never assigned `pred`), not with an explicit invalid-argument
rejection: the code validates nothing. -/
theorem C10_steps_zero_error {b : ℕ} {ι : Type}
    (model : (Fin b → ι → ℝ) → (Fin b → ℝ) → (Fin b → ι → ℝ))
    (x0 : Fin b → ι → ℝ) (eta : ℝ) (noise : ℕ → Fin b → ι → ℝ) :
    sample model x0 0 eta noise =
      Except.error SampleError.unboundLocalPred ∧
    (sampleRun model x0 0 eta noise).tlog.length = 0 := by
  constructor <;> rfl

end Diffusion1D
